import Mathlib

/-!
# Verification of the GSM scanner core (`gsm_scanner.py`)

Shallow embedding of the scanning/aggregation engine:
frequency-to-operator classification (`freq_to_provider`), capture-output
parsing and noise filtering (`scan_with_rtl_power`), per-cycle aggregation
(`aggregate_by_provider`), the continuous-scan loop (`scan_continuous`) and
the lifecycle controls (`start_scanning`, `get_latest_signals`).

Machine floats are modelled as rationals (`ℚ`); Python dicts holding the
per-operator aggregates are modelled as association lists in insertion
order (Python 3.7+ dicts preserve insertion order); object identity of
dicts, needed for the aliasing claim about `get_latest_signals`, is
modelled with an explicit store of dict values addressed by `Nat`.
-/

namespace GSMScanner

/-- Dataclass `GSMSignal`: one classified signal measurement. -/
structure GSMSignal where
  arfcn : Int
  frequency : ℚ
  power : ℚ
  provider : String
deriving DecidableEq, Repr

/-- Table `ROMANIAN_PROVIDERS`: the static operator range table, in declaration
order (`Orange`, `Vodafone`, `Telekom`, `Digi`), each with its ordered list
of inclusive `(lowMHz, highMHz)` intervals. -/
def ROMANIAN_PROVIDERS : List (String × List (ℚ × ℚ)) :=
  [("Orange",   [(935, 941), (1805, 1825)]),
   ("Vodafone", [(941, 948), (1825, 1850)]),
   ("Telekom",  [(948, 954), (1850, 1870)]),
   ("Digi",     [(954, 960), (1870, 1880)])]

/-- Does one of `ranges` contain `freq` (inclusive at both ends)?
This is the inner loop `for start, end in ranges: if start <= freq <= end`. -/
def rangesMatch (freq : ℚ) (ranges : List (ℚ × ℚ)) : Bool :=
  ranges.any (fun r => decide (r.1 ≤ freq) && decide (freq ≤ r.2))

/-- Classification `freq_to_provider`: first operator (in declaration order) one of whose
intervals contains `freq`; `"Unknown"` when none does. -/
def freq_to_provider (freq : ℚ) : String :=
  match ROMANIAN_PROVIDERS.find? (fun p => rangesMatch freq p.2) with
  | some p => p.1
  | none => "Unknown"

/-! ## Capture-output parsing (`scan_with_rtl_power`, lines 84-112)

A CSV row is a list of fields.  Python's `float()` on a field either
yields a number or raises `ValueError`; an empty field is skipped by the
`if p` guard in the power-list comprehension but makes `float()` raise in
the frequency/step positions.  So a field is modelled as numeric,
non-numeric text, or empty. -/

/-- One comma-separated field of a capture-output row. -/
inductive Field where
  | num (q : ℚ)
  | text
  | empty
deriving DecidableEq, Repr

/-- Conversion `float(field)`: `some q` on a numeric field, `none` (ValueError)
on a non-numeric or empty one. -/
def parseField : Field → Option ℚ
  | .num q => some q
  | .text => none
  | .empty => none

/-- Comprehension `[float(p) for p in parts[6:] if p]`: empty fields are dropped, a
non-numeric field raises `ValueError`, which aborts the whole row. -/
def parsePowers : List Field → Option (List ℚ)
  | [] => some []
  | .empty :: rest => parsePowers rest
  | .num q :: rest => (parsePowers rest).map (fun ps => q :: ps)
  | .text :: _ => none

/-- Lines 86-96: split row handling up to the power list.  Returns
`(freq_low, freq_step, power_values)` in MHz, or `none` when the row is
skipped (`len(parts) < 7`, or `ValueError` parsing `parts[2..4]` or a
power field).  `parts[3]` (`freq_high`) is parsed — so its failure skips
the row — but its value is unused downstream. -/
def parseRow (parts : List Field) : Option (ℚ × ℚ × List ℚ) :=
  if parts.length < 7 then none
  else
    match parseField (parts.getD 2 .empty), parseField (parts.getD 3 .empty),
          parseField (parts.getD 4 .empty) with
    | some fLow, some _, some fStep =>
        (parsePowers (parts.drop 6)).map
          (fun ps => (fLow / 1000000, fStep / 1000000, ps))
    | _, _, _ => none

/-- Loop `for i, power in enumerate(power_values)` with
`freq = freq_low + i * freq_step`: the `(frequency, power)` pairs a row
yields, starting at bin index `k`. -/
def emitPairs (fLow fStep : ℚ) : Nat → List ℚ → List (ℚ × ℚ)
  | _, [] => []
  | k, p :: rest => (fLow + k * fStep, p) :: emitPairs fLow fStep (k + 1) rest

/-- The `(frequency, power)` pairs one row contributes (before noise
filtering); `[]` when the row is skipped. -/
def parsedPairs (parts : List Field) : List (ℚ × ℚ) :=
  match parseRow parts with
  | none => []
  | some (fLow, fStep, ps) => emitPairs fLow fStep 0 ps

/-- CaptureParser over the whole file: rows are processed in order, each
contributing its pairs. -/
def parseCapture (rows : List (List Field)) : List (ℚ × ℚ) :=
  rows.flatMap parsedPairs

/-- Python `int()` (truncation toward zero) on a rational. -/
def pyInt (q : ℚ) : Int :=
  if 0 ≤ q then ⌊q⌋ else ⌈q⌉

/-- Lines 98-110: classify each frequency bin and keep it only when its
power is strictly above the −60 dB noise floor. -/
def pairsToSignals (pairs : List (ℚ × ℚ)) : List GSMSignal :=
  pairs.filterMap (fun fp =>
    if fp.2 > -60 then
      some { arfcn := pyInt (fp.1 * 10), frequency := fp.1,
             power := fp.2, provider := freq_to_provider fp.1 }
    else none)

/-- The outcome of the `subprocess.run` capture step as observed by
`scan_with_rtl_power`: normal completion with an exit code and the rows
the tool wrote to the temporary CSV, `subprocess.TimeoutExpired`, or
`FileNotFoundError` (the tool is not installed). -/
inductive CaptureOutcome where
  | completed (returncode : Int) (rows : List (List Field))
  | timeout
  | toolMissing
deriving DecidableEq, Repr

/-- Sweep `scan_with_rtl_power` (lines 53-128), as a function of the capture
outcome.  Returns the signal list together with whether the temporary CSV
file was deleted before returning:
* exit code ≠ 0 — `return signals` at line 80, before the `os.unlink` at
  line 115, so the file survives;
* exit code 0 — the rows are parsed, filtered and classified, then the
  file is unlinked (line 115);
* timeout — the handler unlinks the file, which exists (lines 119-120);
* tool missing — the handler only prints (lines 121-122): no unlink.

The function is total: every failure outcome is caught by a handler and
falls through to `return signals` with `signals` still empty, so no
exception reaches the caller. -/
def scan_with_rtl_power (outcome : CaptureOutcome) : List GSMSignal × Bool :=
  match outcome with
  | .completed rc rows =>
      if rc ≠ 0 then ([], false)
      else (pairsToSignals (parseCapture rows), true)
  | .timeout => ([], true)
  | .toolMissing => ([], false)

/-! ## Aggregation (`aggregate_by_provider`, lines 142-162)

The two dicts `provider_power` / `provider_count` are modelled as one
association list in key insertion order, holding for each provider the
running power sum and count. -/

/-- Dict lookup on the accumulator: first entry with the given key. -/
def lookupAcc (p : String) : List (String × ℚ × Nat) → Option (ℚ × Nat)
  | [] => none
  | e :: rest => if e.1 = p then some e.2 else lookupAcc p rest

/-- One iteration of the `for signal in signals` loop (lines 147-153):
insert the provider with `(0, 0)` when absent, then add the signal's
power to its sum and bump its count. -/
def accStep (acc : List (String × ℚ × Nat)) (s : GSMSignal) :
    List (String × ℚ × Nat) :=
  (if (lookupAcc s.provider acc).isSome then acc
   else acc ++ [(s.provider, 0, 0)]).map
    (fun e => if e.1 = s.provider then (e.1, e.2.1 + s.power, e.2.2 + 1)
              else e)

/-- Aggregation `aggregate_by_provider`: fold the signals into the accumulator, then
build the result dict mapping each provider with a positive count to its
average power (lines 156-161). -/
def aggregate_by_provider (signals : List GSMSignal) : List (String × ℚ) :=
  let acc := signals.foldl accStep []
  acc.filterMap (fun e =>
    if 0 < e.2.2 then some (e.1, e.2.1 / (e.2.2 : ℚ)) else none)

/-- Dict lookup on an aggregate result. -/
def lookupRes (p : String) : List (String × ℚ) → Option ℚ
  | [] => none
  | e :: rest => if e.1 = p then some e.2 else lookupRes p rest

/-! ## Dict identity (`get_latest_signals`, line 206-208; `scan_continuous`
line 176)

Python dicts are mutable objects; `self.signals.copy()` returns a fresh
dict, and `self.signals = self.aggregate_by_provider(...)` rebinds the
attribute to the fresh dict built by the aggregator.  A store of dict
values addressed by `Nat` models object identity: `allocDict` creates a
new object, `writeDict` mutates an existing one in place. -/

/-- The store of live dict objects; an address is an index. -/
structure Heap where
  store : List (List (String × ℚ))
deriving Repr

/-- Create a fresh dict object holding `v`; its address is new. -/
def allocDict (h : Heap) (v : List (String × ℚ)) : Heap × Nat :=
  (⟨h.store ++ [v]⟩, h.store.length)

/-- The value of the dict object at address `a`. -/
def readDict (h : Heap) (a : Nat) : List (String × ℚ) :=
  h.store.getD a []

/-- Mutate the dict object at address `a` in place (e.g. `d[k] = v`,
`d.clear()`, ... — any in-place update replaces the stored value). -/
def writeDict (h : Heap) (a : Nat) (v : List (String × ℚ)) : Heap :=
  ⟨h.store.set a v⟩

/-- The scanner state the heap-level operations touch: the heap of live
dicts and the address `self.signals` is bound to. -/
structure ScannerHeapState where
  heap : Heap
  signalsAddr : Nat
deriving Repr

/-- Accessor `get_latest_signals` (lines 206-208): `return self.signals.copy()` —
a fresh dict holding a copy of the current aggregate. -/
def get_latest_signals (st : ScannerHeapState) : ScannerHeapState × Nat :=
  let v := readDict st.heap st.signalsAddr
  let (h, a) := allocDict st.heap v
  ({ st with heap := h }, a)

/-- One cycle of `scan_continuous` at the heap level (lines 169-179):
both bands are swept, the concatenation is aggregated into a freshly
built dict, and `self.signals` is rebound to it. -/
def runCycleHeap (st : ScannerHeapState) (c : CaptureOutcome × CaptureOutcome) :
    ScannerHeapState × List (String × ℚ) :=
  let agg := aggregate_by_provider
    ((scan_with_rtl_power c.1).1 ++ (scan_with_rtl_power c.2).1)
  let (h, a) := allocDict st.heap agg
  ({ heap := h, signalsAddr := a }, agg)

/-! ## The continuous-scan loop (`scan_continuous`, lines 164-185)

Each loop iteration sweeps GSM-900 then GSM-1800, aggregates, stores the
aggregate in `self.signals` and invokes the callback with it.  The loop is
modelled over the finite list of per-cycle capture outcomes observed while
`self.scanning` stays true; the value returned is the state after the last
cycle together with the list of callback invocations, in order. -/

/-- Run `scan_continuous` for the given cycles, collecting the argument of
every callback invocation. -/
def scan_continuous (st : ScannerHeapState)
    (cycles : List (CaptureOutcome × CaptureOutcome)) :
    ScannerHeapState × List (List (String × ℚ)) :=
  match cycles with
  | [] => (st, [])
  | c :: rest =>
      let (st1, agg) := runCycleHeap st c
      let (st2, calls) := scan_continuous st1 rest
      (st2, agg :: calls)

/-! ## Lifecycle (`start_scanning`, lines 187-198)

`start_scanning` checks `self.scan_thread and self.scan_thread.is_alive()`
and returns at once when a loop thread is already alive; otherwise it sets
`self.scanning`, creates the thread and starts it.  The controller state
tracks the flags plus the number of loop threads ever started and still
alive, to express "at most one live loop". -/

/-- Controller state for the lifecycle claims. -/
structure Controller where
  scanning : Bool
  threadAlive : Bool
  liveLoops : Nat
deriving DecidableEq, Repr

/-- A freshly constructed scanner (`__init__`, lines 39-43): no thread,
not scanning. -/
def initController : Controller :=
  { scanning := false, threadAlive := false, liveLoops := 0 }

/-- Lifecycle `start_scanning`: no-op when a scan thread is alive (lines 189-190);
otherwise launch one new loop thread.  The second component tells whether
a new loop was launched. -/
def start_scanning (c : Controller) : Controller × Bool :=
  if c.threadAlive then (c, false)
  else ({ scanning := true, threadAlive := true, liveLoops := c.liveLoops + 1 },
        true)

/-- Predicate: `f` lies in one of the intervals of `rs` (inclusive at both ends). -/
def inSomeRange (f : ℚ) (rs : List (ℚ × ℚ)) : Prop :=
  ∃ r ∈ rs, r.1 ≤ f ∧ f ≤ r.2

instance (f : ℚ) (rs : List (ℚ × ℚ)) : Decidable (inSomeRange f rs) := by
  unfold inSomeRange; infer_instance

/-- Sum of the `power` fields of the signals labelled `p`. -/
def providerSum (p : String) (signals : List GSMSignal) : ℚ :=
  ((signals.filter (fun s => s.provider = p)).map (fun s => s.power)).sum

/-- Number of signals labelled `p`. -/
def providerCount (p : String) (signals : List GSMSignal) : Nat :=
  (signals.filter (fun s => s.provider = p)).length

end GSMScanner

namespace GSMScanner

lemma inSomeRange_iff (f : ℚ) (rs : List (ℚ × ℚ)) :
    inSomeRange f rs ↔ rangesMatch f rs = true := by
  simp [inSomeRange, rangesMatch, List.any_eq_true, Bool.and_eq_true,
    decide_eq_true_eq]

/-- Lemma: `freq_to_provider` unfolded on the concrete table: the nested loops
with early return are a four-way conditional in declaration order. -/
lemma classify_cases (f : ℚ) :
    freq_to_provider f =
      if rangesMatch f [((935 : ℚ), (941 : ℚ)), (1805, 1825)] then "Orange"
      else if rangesMatch f [((941 : ℚ), (948 : ℚ)), (1825, 1850)] then "Vodafone"
      else if rangesMatch f [((948 : ℚ), (954 : ℚ)), (1850, 1870)] then "Telekom"
      else if rangesMatch f [((954 : ℚ), (960 : ℚ)), (1870, 1880)] then "Digi"
      else "Unknown" := by
  unfold freq_to_provider ROMANIAN_PROVIDERS
  cases hO : rangesMatch f [((935 : ℚ), (941 : ℚ)), (1805, 1825)] <;>
    cases hV : rangesMatch f [((941 : ℚ), (948 : ℚ)), (1825, 1850)] <;>
      cases hT : rangesMatch f [((948 : ℚ), (954 : ℚ)), (1850, 1870)] <;>
        cases hD : rangesMatch f [((954 : ℚ), (960 : ℚ)), (1870, 1880)] <;>
          simp [List.find?, hO, hV, hT, hD]

/-- C1 (counterexample): `941.0` lies in Vodafone's declared interval
`(941.0, 948.0)`, yet `freq_to_provider 941 = "Orange"`, because Orange's
interval `(935.0, 941.0)` also contains `941.0` and Orange is declared
first — so the claim as stated is false at `f = 941`. -/
theorem C1_counterexample :
    ("Vodafone", [((941 : ℚ), (948 : ℚ)), (1825, 1850)]) ∈ ROMANIAN_PROVIDERS
  ∧ (((941 : ℚ), (948 : ℚ)) ∈ [((941 : ℚ), (948 : ℚ)), (1825, 1850)])
  ∧ (941 : ℚ) ≤ 941 ∧ (941 : ℚ) ≤ 948
  ∧ freq_to_provider 941 = "Orange"
  ∧ (freq_to_provider 941 = "Vodafone") = False := by
  refine ⟨by decide, by decide, by decide, by decide, by decide, eq_false ?_⟩
  decide

/-- C1 (amended): for every operator at position `i` of the range table
and every frequency `f` in one of its declared intervals such that no
operator declared before it has an interval containing `f`,
`freq_to_provider f` is that operator's name; and for `f` outside all
declared intervals, `freq_to_provider f = "Unknown"`. -/
theorem C1_amended :
    (∀ (i : Fin ROMANIAN_PROVIDERS.length) (f : ℚ),
        inSomeRange f (ROMANIAN_PROVIDERS.get i).2 →
        (∀ j : Fin ROMANIAN_PROVIDERS.length, (j : ℕ) < (i : ℕ) →
            ¬ inSomeRange f (ROMANIAN_PROVIDERS.get j).2) →
        freq_to_provider f = (ROMANIAN_PROVIDERS.get i).1)
  ∧ (∀ f : ℚ, (∀ e ∈ ROMANIAN_PROVIDERS, ¬ inSomeRange f e.2) →
        freq_to_provider f = "Unknown") := by
  constructor
  · rintro ⟨i, hi⟩ f hmem hearlier
    have hi4 : i < 4 := by simpa [ROMANIAN_PROVIDERS] using hi
    have key : ∀ k (hk : k < 4), k < i ∨ k = i ∨ i < k := by omega
    rw [classify_cases]
    interval_cases i
    · rw [if_pos ((inSomeRange_iff _ _).mp (by simpa [ROMANIAN_PROVIDERS] using hmem))]
      simp [ROMANIAN_PROVIDERS]
    · have h0 := hearlier ⟨0, by simp [ROMANIAN_PROVIDERS]⟩ (by simp)
      rw [if_neg (by simpa [inSomeRange_iff] using
            (by simpa [ROMANIAN_PROVIDERS] using h0 : ¬ inSomeRange f [((935 : ℚ), (941 : ℚ)), (1805, 1825)])),
        if_pos ((inSomeRange_iff _ _).mp (by simpa [ROMANIAN_PROVIDERS] using hmem))]
      simp [ROMANIAN_PROVIDERS]
    · have h0 := hearlier ⟨0, by simp [ROMANIAN_PROVIDERS]⟩ (by simp)
      have h1 := hearlier ⟨1, by simp [ROMANIAN_PROVIDERS]⟩ (by simp)
      rw [if_neg (by simpa [inSomeRange_iff] using
            (by simpa [ROMANIAN_PROVIDERS] using h0 : ¬ inSomeRange f [((935 : ℚ), (941 : ℚ)), (1805, 1825)])),
        if_neg (by simpa [inSomeRange_iff] using
            (by simpa [ROMANIAN_PROVIDERS] using h1 : ¬ inSomeRange f [((941 : ℚ), (948 : ℚ)), (1825, 1850)])),
        if_pos ((inSomeRange_iff _ _).mp (by simpa [ROMANIAN_PROVIDERS] using hmem))]
      simp [ROMANIAN_PROVIDERS]
    · have h0 := hearlier ⟨0, by simp [ROMANIAN_PROVIDERS]⟩ (by simp)
      have h1 := hearlier ⟨1, by simp [ROMANIAN_PROVIDERS]⟩ (by simp)
      have h2 := hearlier ⟨2, by simp [ROMANIAN_PROVIDERS]⟩ (by simp)
      rw [if_neg (by simpa [inSomeRange_iff] using
            (by simpa [ROMANIAN_PROVIDERS] using h0 : ¬ inSomeRange f [((935 : ℚ), (941 : ℚ)), (1805, 1825)])),
        if_neg (by simpa [inSomeRange_iff] using
            (by simpa [ROMANIAN_PROVIDERS] using h1 : ¬ inSomeRange f [((941 : ℚ), (948 : ℚ)), (1825, 1850)])),
        if_neg (by simpa [inSomeRange_iff] using
            (by simpa [ROMANIAN_PROVIDERS] using h2 : ¬ inSomeRange f [((948 : ℚ), (954 : ℚ)), (1850, 1870)])),
        if_pos ((inSomeRange_iff _ _).mp (by simpa [ROMANIAN_PROVIDERS] using hmem))]
      rfl
  · intro f hnone
    rw [classify_cases]
    have hO := hnone _ (by simp [ROMANIAN_PROVIDERS] : ("Orange", [((935 : ℚ), (941 : ℚ)), (1805, 1825)]) ∈ ROMANIAN_PROVIDERS)
    have hV := hnone _ (by simp [ROMANIAN_PROVIDERS] : ("Vodafone", [((941 : ℚ), (948 : ℚ)), (1825, 1850)]) ∈ ROMANIAN_PROVIDERS)
    have hT := hnone _ (by simp [ROMANIAN_PROVIDERS] : ("Telekom", [((948 : ℚ), (954 : ℚ)), (1850, 1870)]) ∈ ROMANIAN_PROVIDERS)
    have hD := hnone _ (by simp [ROMANIAN_PROVIDERS] : ("Digi", [((954 : ℚ), (960 : ℚ)), (1870, 1880)]) ∈ ROMANIAN_PROVIDERS)
    rw [if_neg (by simpa [inSomeRange_iff] using hO),
      if_neg (by simpa [inSomeRange_iff] using hV),
      if_neg (by simpa [inSomeRange_iff] using hT),
      if_neg (by simpa [inSomeRange_iff] using hD)]

/-- Witness for C1 (amended): `942` lies only in Vodafone's first interval
and classifies to `"Vodafone"`; `100` lies in no interval and classifies
to `"Unknown"`. -/
theorem C1_amended_witness :
    freq_to_provider 942 = "Vodafone" ∧ freq_to_provider 100 = "Unknown" :=
  ⟨by simpa [ROMANIAN_PROVIDERS] using
      C1_amended.1 ⟨1, by decide⟩ 942 (by decide) (by decide),
   C1_amended.2 100 (by decide)⟩

/-- C2: `freq_to_provider` resolves by declaration order with first match
winning — the result is `"Orange"` iff an Orange interval contains `f`;
`"Vodafone"` iff no Orange interval does and a Vodafone interval does;
likewise for `"Telekom"` and `"Digi"`; and `"Unknown"` exactly when no
declared interval contains `f`. -/
theorem C2_first_match (f : ℚ) :
    (freq_to_provider f = "Orange" ↔
        inSomeRange f [((935 : ℚ), (941 : ℚ)), (1805, 1825)])
  ∧ (freq_to_provider f = "Vodafone" ↔
        (¬ inSomeRange f [((935 : ℚ), (941 : ℚ)), (1805, 1825)]
         ∧ inSomeRange f [((941 : ℚ), (948 : ℚ)), (1825, 1850)]))
  ∧ (freq_to_provider f = "Telekom" ↔
        (¬ inSomeRange f [((935 : ℚ), (941 : ℚ)), (1805, 1825)]
         ∧ ¬ inSomeRange f [((941 : ℚ), (948 : ℚ)), (1825, 1850)]
         ∧ inSomeRange f [((948 : ℚ), (954 : ℚ)), (1850, 1870)]))
  ∧ (freq_to_provider f = "Digi" ↔
        (¬ inSomeRange f [((935 : ℚ), (941 : ℚ)), (1805, 1825)]
         ∧ ¬ inSomeRange f [((941 : ℚ), (948 : ℚ)), (1825, 1850)]
         ∧ ¬ inSomeRange f [((948 : ℚ), (954 : ℚ)), (1850, 1870)]
         ∧ inSomeRange f [((954 : ℚ), (960 : ℚ)), (1870, 1880)]))
  ∧ (freq_to_provider f = "Unknown" ↔
        (¬ inSomeRange f [((935 : ℚ), (941 : ℚ)), (1805, 1825)]
         ∧ ¬ inSomeRange f [((941 : ℚ), (948 : ℚ)), (1825, 1850)]
         ∧ ¬ inSomeRange f [((948 : ℚ), (954 : ℚ)), (1850, 1870)]
         ∧ ¬ inSomeRange f [((954 : ℚ), (960 : ℚ)), (1870, 1880)])) := by
  rw [classify_cases]
  cases hO : rangesMatch f [((935 : ℚ), (941 : ℚ)), (1805, 1825)] <;>
    cases hV : rangesMatch f [((941 : ℚ), (948 : ℚ)), (1825, 1850)] <;>
      cases hT : rangesMatch f [((948 : ℚ), (954 : ℚ)), (1850, 1870)] <;>
        cases hD : rangesMatch f [((954 : ℚ), (960 : ℚ)), (1870, 1880)] <;>
          simp [inSomeRange_iff, hO, hV, hT, hD]

/-! ### Aggregation lemmas (C3) -/

lemma providerSum_cons (p : String) (s : GSMSignal) (l : List GSMSignal) :
    providerSum p (s :: l) =
      if s.provider = p then s.power + providerSum p l else providerSum p l := by
  simp only [providerSum, List.filter_cons]
  split <;> simp_all

lemma providerCount_cons (p : String) (s : GSMSignal) (l : List GSMSignal) :
    providerCount p (s :: l) =
      if s.provider = p then providerCount p l + 1 else providerCount p l := by
  simp only [providerCount, List.filter_cons]
  split <;> simp_all [Nat.add_comm]

lemma lookupAcc_map_update (prov : String) (pw : ℚ) (p : String)
    (acc : List (String × ℚ × Nat)) :
    lookupAcc p (acc.map (fun e =>
        if e.1 = prov then (e.1, e.2.1 + pw, e.2.2 + 1) else e)) =
      if p = prov then
        (lookupAcc p acc).map (fun qn => (qn.1 + pw, qn.2 + 1))
      else lookupAcc p acc := by
  induction acc with
  | nil => simp [lookupAcc]
  | cons e rest ih =>
    by_cases heq : e.1 = prov
    · by_cases hep : e.1 = p
      · have hpprov : p = prov := hep ▸ heq
        simp [lookupAcc, hep, heq, hpprov]
      · have hpprov : ¬ p = prov := fun h => hep (heq.trans h.symm)
        have hprovp : ¬ prov = p := fun h => hpprov h.symm
        simp [lookupAcc, hep, heq, hpprov, hprovp, ih]
    · by_cases hep : e.1 = p
      · have hpprov : ¬ p = prov := fun h => heq (hep.trans h)
        simp [lookupAcc, hep, heq, hpprov]
      · simp [lookupAcc, hep, heq, ih]

lemma lookupAcc_append_single (p prov : String) (q : ℚ) (n : Nat)
    (acc : List (String × ℚ × Nat)) :
    lookupAcc p (acc ++ [(prov, q, n)]) =
      match lookupAcc p acc with
      | some v => some v
      | none => if prov = p then some (q, n) else none := by
  induction acc with
  | nil => simp [lookupAcc]
  | cons e rest ih =>
    by_cases hep : e.1 = p <;> simp [lookupAcc, hep, ih]

lemma lookupAcc_accStep (acc : List (String × ℚ × Nat)) (s : GSMSignal)
    (p : String) :
    lookupAcc p (accStep acc s) =
      if p = s.provider then
        match lookupAcc p acc with
        | some (q, n) => some (q + s.power, n + 1)
        | none => some (0 + s.power, 0 + 1)
      else lookupAcc p acc := by
  unfold accStep
  by_cases hsome : (lookupAcc s.provider acc).isSome = true
  · rw [if_pos hsome, lookupAcc_map_update]
    by_cases hp : p = s.provider
    · subst hp
      rcases hlk : lookupAcc s.provider acc with _ | ⟨q, n⟩
      · rw [hlk] at hsome; simp at hsome
      · simp [hlk]
    · simp [hp]
  · have hnone : lookupAcc s.provider acc = none := by
      rcases h : lookupAcc s.provider acc with _ | v
      · rfl
      · rw [h] at hsome; simp at hsome
    rw [if_neg hsome, lookupAcc_map_update, lookupAcc_append_single]
    by_cases hp : p = s.provider
    · subst hp
      rw [hnone]
      simp
    · have hsp : ¬ s.provider = p := fun h => hp h.symm
      rcases h : lookupAcc p acc with _ | v <;> simp [hp, hsp, h]

lemma lookupAcc_foldl (l : List GSMSignal) (p : String) :
    ∀ acc : List (String × ℚ × Nat),
      lookupAcc p (l.foldl accStep acc) =
        match lookupAcc p acc with
        | some (q, n) => some (q + providerSum p l, n + providerCount p l)
        | none =>
            if providerCount p l = 0 then none
            else some (providerSum p l, providerCount p l) := by
  induction l with
  | nil =>
    intro acc
    rcases h : lookupAcc p acc with _ | ⟨q, n⟩ <;>
      simp [h, providerSum, providerCount]
  | cons s rest ih =>
    intro acc
    rw [List.foldl_cons, ih (accStep acc s), lookupAcc_accStep,
      providerSum_cons, providerCount_cons]
    by_cases hp : p = s.provider
    · have hsp : s.provider = p := hp.symm
      rw [if_pos hp, if_pos hsp, if_pos hsp]
      rcases hlk : lookupAcc p acc with _ | ⟨q, n⟩
      · simp [add_comm, add_assoc, add_left_comm, Nat.add_comm,
          Nat.add_assoc, Nat.add_left_comm]
      · simp [add_comm, add_assoc, add_left_comm, Nat.add_comm,
          Nat.add_assoc, Nat.add_left_comm]
    · have hsp : ¬ s.provider = p := fun h => hp h.symm
      rw [if_neg hp, if_neg hsp, if_neg hsp]

lemma accStep_counts_pos (acc : List (String × ℚ × Nat)) (s : GSMSignal)
    (h : ∀ e ∈ acc, 0 < e.2.2) :
    ∀ e ∈ accStep acc s, 0 < e.2.2 := by
  intro e he
  unfold accStep at he
  rcases List.mem_map.mp he with ⟨x, hx, rfl⟩
  by_cases hxp : x.1 = s.provider
  · simp [hxp]
  · simp only [hxp, if_false]
    split at hx
    · exact h x hx
    · rcases List.mem_append.mp hx with hxa | hxs
      · exact h x hxa
      · rw [List.mem_singleton] at hxs
        subst hxs
        simp at hxp

lemma foldl_counts_pos (l : List GSMSignal) :
    ∀ acc, (∀ e ∈ acc, 0 < e.2.2) →
      ∀ e ∈ l.foldl accStep acc, 0 < e.2.2 := by
  induction l with
  | nil => intro acc h; simpa using h
  | cons s rest ih => intro acc h; exact ih _ (accStep_counts_pos acc s h)

lemma lookupRes_result (p : String) :
    ∀ acc : List (String × ℚ × Nat), (∀ e ∈ acc, 0 < e.2.2) →
      lookupRes p (acc.filterMap (fun e =>
          if 0 < e.2.2 then some (e.1, e.2.1 / (e.2.2 : ℚ)) else none)) =
        (lookupAcc p acc).map (fun qn => qn.1 / (qn.2 : ℚ)) := by
  intro acc
  induction acc with
  | nil => intro _; simp [lookupRes, lookupAcc]
  | cons e rest ih =>
    intro h
    have he : 0 < e.2.2 := h e (List.mem_cons_self e rest)
    have hrest := ih (fun x hx => h x (List.mem_cons_of_mem e hx))
    rw [List.filterMap_cons]
    by_cases hep : e.1 = p <;>
      simp [he, hep, lookupRes, lookupAcc, hrest]

lemma lookupAcc_isSome_iff (p : String) (acc : List (String × ℚ × Nat)) :
    (lookupAcc p acc).isSome = true ↔ ∃ e ∈ acc, e.1 = p := by
  induction acc with
  | nil => simp [lookupAcc]
  | cons e rest ih => by_cases hep : e.1 = p <;> simp [lookupAcc, hep, ih]

lemma lookupAcc_mem (p : String) (acc : List (String × ℚ × Nat))
    (v : ℚ × Nat) : lookupAcc p acc = some v → (p, v) ∈ acc := by
  induction acc with
  | nil => intro h; simp [lookupAcc] at h
  | cons e rest ih =>
    intro h
    by_cases hep : e.1 = p
    · rw [lookupAcc, if_pos hep] at h
      have : (p, v) = e := by
        rw [Prod.ext_iff]
        exact ⟨hep.symm, (Option.some_inj.mp h).symm⟩
      rw [this]
      exact List.mem_cons_self e rest
    · rw [lookupAcc, if_neg hep] at h
      exact List.mem_cons_of_mem e (ih h)

/-- C3: for every signal list, `aggregate_by_provider` maps exactly the
operator labels occurring in the input (including `"Unknown"`) to the
arithmetic mean of their `powerDb` values; an operator with no record is
absent (its lookup is `none`), the empty input yields the empty mapping,
and two Orange records at −50 and −55 aggregate to
`{"Orange": -52.5}`. -/
theorem C3_aggregate_mean :
    (∀ (signals : List GSMSignal) (p : String),
        lookupRes p (aggregate_by_provider signals) =
          if providerCount p signals = 0 then none
          else some (providerSum p signals / (providerCount p signals : ℚ)))
  ∧ (∀ (signals : List GSMSignal) (p : String),
        (∃ v, (p, v) ∈ aggregate_by_provider signals) ↔
          0 < providerCount p signals)
  ∧ aggregate_by_provider [] = []
  ∧ aggregate_by_provider
      [{ arfcn := 0, frequency := 0, power := -50, provider := "Orange" },
       { arfcn := 0, frequency := 0, power := -55, provider := "Orange" }] =
      [("Orange", -105 / 2)] := by
  refine ⟨?_, ?_, rfl, by simp [aggregate_by_provider, accStep, lookupAcc]; norm_num⟩
  · intro signals p
    unfold aggregate_by_provider
    rw [lookupRes_result p _ (foldl_counts_pos signals [] (by simp)),
      lookupAcc_foldl signals p []]
    simp only [lookupAcc]
    by_cases hc : providerCount p signals = 0 <;> simp [hc]
  · intro signals p
    constructor
    · rintro ⟨v, hv⟩
      unfold aggregate_by_provider at hv
      rcases List.mem_filterMap.mp hv with ⟨e, he, hfe⟩
      have he1 : e.1 = p := by
        by_cases h0 : 0 < e.2.2
        · rw [if_pos h0] at hfe
          exact (Prod.ext_iff.mp (Option.some_inj.mp hfe)).1
        · rw [if_neg h0] at hfe
          exact absurd hfe (Option.noConfusion)
      have hsome : (lookupAcc p (signals.foldl accStep [])).isSome = true :=
        (lookupAcc_isSome_iff p _).mpr ⟨e, he, he1⟩
      rw [lookupAcc_foldl signals p []] at hsome
      simp only [lookupAcc] at hsome
      by_cases hc : providerCount p signals = 0
      · rw [if_pos hc] at hsome
        simp at hsome
      · omega
    · intro hc
      have hfold := lookupAcc_foldl signals p []
      simp only [lookupAcc] at hfold
      rw [if_neg (by omega)] at hfold
      have hmem := lookupAcc_mem p _ _ hfold
      refine ⟨providerSum p signals / (providerCount p signals : ℚ), ?_⟩
      unfold aggregate_by_provider
      exact List.mem_filterMap.mpr
        ⟨(p, providerSum p signals, providerCount p signals), hmem, by simp [hc]⟩

/-! ### Noise filtering and failure handling (C4, C5, C6) -/

lemma mem_pairsToSignals_power (pairs : List (ℚ × ℚ)) (s : GSMSignal)
    (h : s ∈ pairsToSignals pairs) : -60 < s.power := by
  unfold pairsToSignals at h
  rcases List.mem_filterMap.mp h with ⟨fp, _, hfp⟩
  by_cases hgt : fp.2 > -60
  · rw [if_pos hgt] at hfp
    cases Option.some_inj.mp hfp
    exact hgt
  · rw [if_neg hgt] at hfp
    exact absurd hfp Option.noConfusion

/-- C4: no record with power at or below the −60 dB noise floor is ever
present in the sequence returned by `scan_with_rtl_power`: every returned
signal has power strictly greater than −60. -/
theorem C4_noise_floor :
    ∀ (outcome : CaptureOutcome) (s : GSMSignal),
      s ∈ (scan_with_rtl_power outcome).1 → -60 < s.power := by
  intro outcome s hs
  cases outcome with
  | completed rc rows =>
    simp only [scan_with_rtl_power] at hs
    by_cases hrc : rc ≠ 0
    · rw [if_pos hrc] at hs
      simp at hs
    · rw [if_neg hrc] at hs
      exact mem_pairsToSignals_power _ _ hs
  | timeout => simp [scan_with_rtl_power] at hs
  | toolMissing => simp [scan_with_rtl_power] at hs

/-- Witness for C4 at a concrete capture: one row with a single −50 dB bin
at 935 MHz survives and indeed exceeds the noise floor. -/
theorem C4_witness : (-60 : ℚ) < -50 := by
  have hscan : (scan_with_rtl_power (.completed 0
      [[.num 0, .num 0, .num 935000000, .num 935000000, .num 200000,
        .num 1, .num (-50)]])).1 =
      [{ arfcn := 9350, frequency := 935, power := -50,
         provider := "Orange" }] := by
    have h1 : ((935000000 : ℚ) / 1000000) = 935 := by norm_num
    have h2 : ((200000 : ℚ) / 1000000) = 1 / 5 := by norm_num
    simp [scan_with_rtl_power, parseCapture, parsedPairs, parseRow,
      parsePowers, parseField, emitPairs, h1, h2]
    norm_num [pairsToSignals, List.filterMap, pyInt, freq_to_provider,
      ROMANIAN_PROVIDERS, rangesMatch, List.find?]
  exact C4_noise_floor _ _ (by rw [hscan]; exact List.mem_singleton.mpr rfl)

/-- C5 (code behaviour at the failing input): `scan_with_rtl_power`
deletes the temporary CSV on the success and timeout paths, but NOT on
the tool-missing (`FileNotFoundError`) path, nor on the non-zero-exit
path — the claim's "cleanup on every exit path" fails there. -/
theorem C5_cleanup_paths :
    (scan_with_rtl_power .toolMissing).2 = false
  ∧ (scan_with_rtl_power .timeout).2 = true
  ∧ (∀ rows, (scan_with_rtl_power (.completed 0 rows)).2 = true)
  ∧ (∀ rows, (scan_with_rtl_power (.completed 1 rows)).2 = false) := by
  refine ⟨rfl, rfl, fun rows => rfl, fun rows => by simp [scan_with_rtl_power]⟩

/-- C6: on every capture failure — non-zero exit code, timeout, or
missing capture tool — `scan_with_rtl_power` returns the empty record
sequence (the model is a total function: the handlers absorb every
failure, so no exception propagates to the caller). -/
theorem C6_failures_return_empty :
    (∀ (rc : Int) (rows : List (List Field)), rc ≠ 0 →
        (scan_with_rtl_power (.completed rc rows)).1 = [])
  ∧ (scan_with_rtl_power .timeout).1 = []
  ∧ (scan_with_rtl_power .toolMissing).1 = [] := by
  refine ⟨fun rc rows h => ?_, rfl, rfl⟩
  simp [scan_with_rtl_power, h]

/-- Witness for C6 at exit code 1. -/
theorem C6_witness : (scan_with_rtl_power (.completed 1 [])).1 = [] :=
  C6_failures_return_empty.1 1 [] (by decide)

/-! ### Row parsing (C7) -/

lemma emitPairs_eq (fLow fStep : ℚ) :
    ∀ (ps : List ℚ) (i : Nat),
      emitPairs fLow fStep i ps =
        (List.range ps.length).map
          (fun k => (fLow + ((i + k : ℕ) : ℚ) * fStep, ps.getD k 0)) := by
  intro ps
  induction ps with
  | nil => intro i; simp [emitPairs]
  | cons p rest ih =>
    intro i
    rw [emitPairs, ih (i + 1), List.length_cons, List.range_succ_eq_map,
      List.map_cons]
    congr 1
    rw [List.map_map]
    apply List.map_congr_left
    intro k _
    simp only [Function.comp]
    rw [Prod.ext_iff]
    refine ⟨?_, by simp⟩
    push_cast
    ring

lemma parsePowers_text : ∀ l : List Field, Field.text ∈ l →
    parsePowers l = none := by
  intro l
  induction l with
  | nil => intro h; simp at h
  | cons f rest ih =>
    intro h
    cases f with
    | num q =>
      have : Field.text ∈ rest := by simpa using h
      rw [parsePowers, ih this]
      rfl
    | text => rfl
    | empty =>
      rw [parsePowers]
      exact ih (by simpa using h)

lemma parsedPairs_of_none (parts : List Field) (h : parseRow parts = none) :
    parsedPairs parts = [] := by
  unfold parsedPairs
  rw [h]

/-- C7: a well-formed row with low frequency `f0`, step `s` and `n` power
values `p0..p(n-1)` yields exactly the pairs `(f0 + k*s, pk)` for
`k in [0, n)`; a malformed row — fewer than 7 fields, or a non-numeric
frequency, step or power field — is skipped (contributes nothing), and
the remaining rows of the capture output still contribute their pairs. -/
theorem C7_row_parsing :
    (∀ (parts : List Field) (f0 st : ℚ) (ps : List ℚ),
        parseRow parts = some (f0, st, ps) →
        parsedPairs parts =
          (List.range ps.length).map
            (fun k : ℕ => (f0 + (k : ℚ) * st, ps.getD k 0)))
  ∧ (∀ parts : List Field,
        (parts.length < 7 ∨
         parseField (parts.getD 2 .empty) = none ∨
         parseField (parts.getD 3 .empty) = none ∨
         parseField (parts.getD 4 .empty) = none ∨
         Field.text ∈ parts.drop 6) →
        parseRow parts = none)
  ∧ (∀ parts : List Field, parseRow parts = none → parsedPairs parts = [])
  ∧ (∀ (pre : List (List Field)) (bad : List Field)
        (post : List (List Field)),
        parseRow bad = none →
        parseCapture (pre ++ bad :: post) = parseCapture (pre ++ post)) := by
  refine ⟨?_, ?_, parsedPairs_of_none, ?_⟩
  · intro parts f0 st ps h
    unfold parsedPairs
    rw [h]
    show emitPairs f0 st 0 ps = _
    rw [emitPairs_eq]
    apply List.map_congr_left
    intro k _
    simp
  · intro parts h
    unfold parseRow
    by_cases h7 : parts.length < 7
    · rw [if_pos h7]
    · rw [if_neg h7]
      cases h2 : parseField (parts.getD 2 .empty) with
      | none => rfl
      | some q2 =>
        cases h3 : parseField (parts.getD 3 .empty) with
        | none => rfl
        | some q3 =>
          cases h4 : parseField (parts.getD 4 .empty) with
          | none => rfl
          | some q4 =>
            rcases h with h | h | h | h | h
            · exact absurd h h7
            · rw [h2] at h; exact absurd h Option.noConfusion
            · rw [h3] at h; exact absurd h Option.noConfusion
            · rw [h4] at h; exact absurd h Option.noConfusion
            · rw [parsePowers_text _ h]
              rfl
  · intro pre bad post h
    simp [parseCapture, parsedPairs_of_none bad h]

/-- Witness for C7: a well-formed single-bin row emits its pair; the empty
row and a row with a non-numeric frequency field parse to `none`; a row
whose `parseRow` is `none` contributes nothing and is skipped without
stopping the parse of the following row. -/
theorem C7_witness :
    parsedPairs [Field.num 0, Field.num 0, Field.num 935000000,
        Field.num 935000000, Field.num 200000, Field.num 1,
        Field.num (-50)] =
      (List.range ([( -50 : ℚ)].length)).map
        (fun k : ℕ => ((935000000 : ℚ) / 1000000 +
          (k : ℚ) * ((200000 : ℚ) / 1000000), [(-50 : ℚ)].getD k 0))
  ∧ parseRow [] = none
  ∧ parseRow [Field.num 0, Field.num 0, Field.text, Field.num 0,
      Field.num 0, Field.num 0, Field.num 0] = none
  ∧ parsedPairs [Field.text] = []
  ∧ parseCapture ([] ++ [Field.text] :: [[Field.num 0]]) =
      parseCapture ([] ++ [[Field.num 0]]) :=
  ⟨C7_row_parsing.1 _ ((935000000 : ℚ) / 1000000)
      ((200000 : ℚ) / 1000000) [(-50 : ℚ)] rfl,
   C7_row_parsing.2.1 [] (Or.inl (by decide)),
   C7_row_parsing.2.1 _ (Or.inr (Or.inl rfl)),
   C7_row_parsing.2.2.1 [Field.text] rfl,
   C7_row_parsing.2.2.2 [] [Field.text] [[Field.num 0]] rfl⟩

/-! ### Continuous scan loop (C8) -/

/-- C8: for any run of the continuous-scan loop, the callback invocation
list is exactly one entry per cycle, in order, each holding that cycle's
freshly aggregated result — so an all-empty cycle still produces a call
with the empty mapping, and a cycle whose sweeps fail (yielding no
records) never prevents the following cycles from producing theirs. -/
theorem C8_callback_per_cycle :
    (∀ (st : ScannerHeapState)
        (cycles : List (CaptureOutcome × CaptureOutcome)),
        (scan_continuous st cycles).2 =
          cycles.map (fun c => aggregate_by_provider
            ((scan_with_rtl_power c.1).1 ++ (scan_with_rtl_power c.2).1)))
  ∧ (∀ (st : ScannerHeapState)
        (cycles : List (CaptureOutcome × CaptureOutcome)),
        (scan_continuous st cycles).2.length = cycles.length) := by
  have main : ∀ (cycles : List (CaptureOutcome × CaptureOutcome))
      (st : ScannerHeapState),
      (scan_continuous st cycles).2 =
        cycles.map (fun c => aggregate_by_provider
          ((scan_with_rtl_power c.1).1 ++ (scan_with_rtl_power c.2).1)) := by
    intro cycles
    induction cycles with
    | nil => intro st; rfl
    | cons c rest ih =>
      intro st
      simp [scan_continuous, runCycleHeap, ih]
  exact ⟨fun st cycles => main cycles st,
    fun st cycles => by rw [main cycles st]; simp⟩

/-! ### Lifecycle (C9) -/

lemma start_scanning_invariant (c : Controller)
    (h1 : c.threadAlive = false → c.liveLoops = 0) (h2 : c.liveLoops ≤ 1) :
    ((start_scanning c).1.threadAlive = false →
      (start_scanning c).1.liveLoops = 0)
    ∧ (start_scanning c).1.liveLoops ≤ 1 := by
  unfold start_scanning
  cases hta : c.threadAlive
  · simp [h1 hta]
  · simpa using ⟨h1, h2⟩

/-- C9: calling `start_scanning` while a scan thread is alive returns at
once with the controller unchanged and no loop launched; consequently,
after any number of `start_scanning` calls on a fresh controller at most
one scan loop is ever alive. -/
theorem C9_double_start :
    (∀ c : Controller, c.threadAlive = true → start_scanning c = (c, false))
  ∧ (∀ n : ℕ,
      ((fun c => (start_scanning c).1)^[n] initController).liveLoops ≤ 1) := by
  constructor
  · intro c h
    simp [start_scanning, h]
  · intro n
    have key : ∀ m : ℕ,
        (((fun c => (start_scanning c).1)^[m] initController).threadAlive =
            false →
          ((fun c => (start_scanning c).1)^[m] initController).liveLoops = 0)
        ∧ ((fun c => (start_scanning c).1)^[m]
            initController).liveLoops ≤ 1 := by
      intro m
      induction m with
      | zero => simp [initController]
      | succ k ih =>
        rw [Function.iterate_succ_apply']
        exact start_scanning_invariant _ ih.1 ih.2
    exact (key n).2

/-- Witness for C9: on a controller whose thread is alive, a further
`start_scanning` changes nothing and launches nothing. -/
theorem C9_witness :
    start_scanning ⟨true, true, 1⟩ = (⟨true, true, 1⟩, false) :=
  C9_double_start.1 ⟨true, true, 1⟩ rfl

/-! ### Dict identity (C10) -/

lemma readDict_alloc_new (h : Heap) (v : List (String × ℚ)) :
    readDict (allocDict h v).1 (allocDict h v).2 = v := by
  simp [readDict, allocDict, List.getD]

lemma readDict_alloc_old (h : Heap) (v : List (String × ℚ)) (a : Nat)
    (ha : a < h.store.length) :
    readDict (allocDict h v).1 a = readDict h a := by
  simp [readDict, allocDict, List.getD, List.getElem?_append, ha]

lemma readDict_write_ne (h : Heap) (a b : Nat) (v : List (String × ℚ))
    (hne : a ≠ b) : readDict (writeDict h a v) b = readDict h b := by
  simp [readDict, writeDict, List.getD, List.getElem?_set_ne hne]

/-- C10: `get_latest_signals` returns a fresh dict object — a different
address than `self.signals` holding an equal value — and mutating the
returned dict in place leaves the controller's aggregate unchanged;
moreover every scan cycle rebinds `self.signals` to a freshly allocated
dict (the next free address) and leaves the previous cycle's dict value
untouched. -/
theorem C10_defensive_copy :
    (∀ st : ScannerHeapState, st.signalsAddr < st.heap.store.length →
        (get_latest_signals st).2 ≠ st.signalsAddr
      ∧ readDict (get_latest_signals st).1.heap (get_latest_signals st).2 =
          readDict st.heap st.signalsAddr
      ∧ ∀ v, readDict (writeDict (get_latest_signals st).1.heap
            (get_latest_signals st).2 v) st.signalsAddr =
          readDict st.heap st.signalsAddr)
  ∧ (∀ (st : ScannerHeapState) (c : CaptureOutcome × CaptureOutcome),
        (runCycleHeap st c).1.signalsAddr = st.heap.store.length
      ∧ (st.signalsAddr < st.heap.store.length →
          readDict (runCycleHeap st c).1.heap st.signalsAddr =
            readDict st.heap st.signalsAddr)) := by
  constructor
  · intro st hlt
    refine ⟨Nat.ne_of_gt hlt, ?_, ?_⟩
    · show readDict (allocDict st.heap (readDict st.heap st.signalsAddr)).1
          (allocDict st.heap (readDict st.heap st.signalsAddr)).2 =
        readDict st.heap st.signalsAddr
      exact readDict_alloc_new _ _
    · intro v
      show readDict (writeDict
          (allocDict st.heap (readDict st.heap st.signalsAddr)).1
          st.heap.store.length v) st.signalsAddr =
        readDict st.heap st.signalsAddr
      rw [readDict_write_ne _ _ _ _ (Nat.ne_of_gt hlt),
        readDict_alloc_old st.heap _ _ hlt]
  · intro st c
    refine ⟨rfl, fun hlt => ?_⟩
    exact readDict_alloc_old st.heap _ _ hlt

/-- Witness for C10: a one-dict heap; mutating the copy returned by
`get_latest_signals` does not change the aggregate at address 0, and a
cycle allocates address 1 while preserving the value at address 0. -/
theorem C10_witness :
    (get_latest_signals ⟨⟨[[("Orange", -50)]]⟩, 0⟩).2 ≠ 0
  ∧ readDict (writeDict
      (get_latest_signals ⟨⟨[[("Orange", -50)]]⟩, 0⟩).1.heap
      (get_latest_signals ⟨⟨[[("Orange", -50)]]⟩, 0⟩).2 []) 0 =
      readDict ⟨[[("Orange", -50)]]⟩ 0
  ∧ (runCycleHeap ⟨⟨[[("Orange", -50)]]⟩, 0⟩
      (.toolMissing, .toolMissing)).1.signalsAddr = 1 :=
  ⟨(C10_defensive_copy.1 ⟨⟨[[("Orange", -50)]]⟩, 0⟩ (by decide)).1,
   (C10_defensive_copy.1 ⟨⟨[[("Orange", -50)]]⟩, 0⟩ (by decide)).2.2 [],
   (C10_defensive_copy.2 ⟨⟨[[("Orange", -50)]]⟩, 0⟩
      (.toolMissing, .toolMissing)).1⟩

end GSMScanner
